import Mathlib

/-!
Verification of the roach-parlor frontend against its specification.

Shallow embedding of the TypeScript frontend code:
JavaScript numbers are modelled as rationals extended with the IEEE
special values (infinities and NaN), strings as Lean strings, optional
or possibly-undefined values as Option, and thrown exceptions as an
explicit error constructor.  Platform built-ins that the code calls
(parseFloat, JSON.parse, atob) are either modelled concretely on the
input alphabet actually reaching them (parseFloat) or passed as
explicit function parameters (JSON.parse + atob composites).
-/

namespace RoachParlor

/-- Wager status enumeration, from src/frontend/src/types (WagerStatus). -/
inductive WagerStatus where
  | pending
  | won
  | lost
  | push
  | cancelled
deriving DecidableEq, Repr

/-- User role, from the User interface in the auth types. -/
inductive Role where
  | user
  | admin
deriving DecidableEq, Repr

/-- The User record of the auth types (id, username, email, role, createdAt). -/
structure User where
  id : Nat
  username : String
  email : String
  role : Role
  createdAt : String
deriving DecidableEq, Repr

/-- The fields of the Wager record that the verified components read. -/
structure Wager where
  id : Nat
  status : WagerStatus
  archived : Bool
  amount : ℚ
  line : String
deriving DecidableEq, Repr

/-! ## JavaScript number model

A JavaScript number is a finite value (modelled exactly as a rational,
ignoring binary rounding), one of the two infinities, or NaN. -/

/-- Model of a JavaScript number: finite rational, an infinity, or NaN. -/
inductive JSNum where
  | fin (q : ℚ)
  | inf
  | ninf
  | nan
deriving DecidableEq, Repr

/-- A JavaScript number is finite when it is neither an infinity nor NaN. -/
def JSNum.isFinite : JSNum → Bool
  | .fin _ => true
  | _ => false

/-- JavaScript division of two finite numbers: a nonzero denominator gives
the exact quotient; a (positive) zero denominator gives a signed infinity,
or NaN when the numerator is also zero. -/
def jsDiv (a b : ℚ) : JSNum :=
  if b = 0 then
    if a > 0 then .inf else if a < 0 then .ninf else .nan
  else .fin (a / b)

/-- JavaScript multiplication of a number by a finite number: finite times
finite is exact; an infinity times a finite value keeps or flips its sign,
and gives NaN against zero; NaN propagates. -/
def jsMul (a : JSNum) (b : ℚ) : JSNum :=
  match a with
  | .fin q => .fin (q * b)
  | .inf => if b > 0 then .inf else if b < 0 then .ninf else .nan
  | .ninf => if b > 0 then .ninf else if b < 0 then .inf else .nan
  | .nan => .nan

/-! ## calculatePayout (src/unnamed/part_014, utils/helpers) -/

/-- The character class kept by the replace call in calculatePayout:
the regex removes every character that is not a minus sign, a digit,
or a dot. -/
def keptOddsChar (c : Char) : Bool :=
  c = '-' || c.isDigit || c = '.'

/-- line.replace of everything outside [-, digit, .] by the empty string. -/
def stripOdds (l : String) : String :=
  ⟨l.data.filter keptOddsChar⟩

/-- Numeric value of a list of decimal digit characters. -/
def digitsVal (ds : List Char) : Nat :=
  ds.foldl (fun a c => 10 * a + (c.toNat - '0'.toNat)) 0

/-- The decimal literal recognized at the front of a parseFloat input:
an optional minus sign, integer-part digits and fraction-part digits. -/
structure DecLit where
  neg : Bool
  ip : List Char
  fp : List Char
deriving DecidableEq, Repr

/-- Syntactic stage of the parseFloat model: the longest leading decimal
literal of the character list (optional sign, then digits, digits-dot-digits
or dot-digits); none when no digit is consumed before parsing stops. -/
def parseDecimalSyntax (l : List Char) : Option DecLit :=
  let (neg, rest) :=
    match l with
    | '-' :: r => (true, r)
    | '+' :: r => (false, r)
    | r => (false, r)
  let ip := rest.takeWhile Char.isDigit
  let r1 := rest.dropWhile Char.isDigit
  match r1 with
  | '.' :: r2 =>
      let fp := r2.takeWhile Char.isDigit
      if ip.isEmpty && fp.isEmpty then none else some ⟨neg, ip, fp⟩
  | _ => if ip.isEmpty then none else some ⟨neg, ip, []⟩

/-- Numeric value of a recognized decimal literal. -/
def DecLit.val (d : DecLit) : ℚ :=
  (if d.neg then (-1 : ℚ) else 1) *
    ((digitsVal d.ip : ℚ) + (digitsVal d.fp : ℚ) / 10 ^ d.fp.length)

/-- Model of the JavaScript parseFloat built-in, restricted to the
alphabet that can reach it here (minus signs, plus signs, digits and
dots, no whitespace, no exponent letters, no Infinity literal): the
value of the longest leading decimal literal, none (NaN) when there is
none. -/
def parseFloatQ (s : String) : Option ℚ :=
  (parseDecimalSyntax s.data).map DecLit.val

/-- calculatePayout from utils/helpers: strips the line to its odds
characters, parses it with parseFloat, returns null on NaN, and
otherwise computes (odds / 100) * amount for positive odds and
(100 / |odds|) * amount for the rest, in JavaScript arithmetic. -/
def calculatePayout (amount : ℚ) (line : String) : Option JSNum :=
  match parseFloatQ (stripOdds line) with
  | none => none
  | some odds =>
      if odds > 0 then
        some (jsMul (.fin (odds / 100)) amount)
      else
        some (jsMul (jsDiv 100 |odds|) amount)

example : parseDecimalSyntax (stripOdds "+150").data = some ⟨false, ['1', '5', '0'], []⟩ := by
  decide

example : parseDecimalSyntax (stripOdds "PK").data = none := by decide

theorem digitsVal_nil : digitsVal [] = 0 := rfl

example : parseFloatQ (stripOdds "+150") = some 150 := by
  have hs : parseDecimalSyntax (stripOdds "+150").data = some ⟨false, ['1', '5', '0'], []⟩ := by
    decide
  have h : digitsVal ['1', '5', '0'] = 150 := by decide
  simp [parseFloatQ, hs, DecLit.val, h, digitsVal_nil]

example : calculatePayout 100 "PK" = none := by
  have hs : parseDecimalSyntax (stripOdds "PK").data = none := by decide
  simp [calculatePayout, parseFloatQ, hs]

/-- C1: calculatePayout strips the line to its sign/digit/dot content and
parses it as an American-odds number n; when nothing numeric remains it
returns null without throwing; when n > 0 it returns stake × n / 100;
when n < 0 it returns stake × 100 / |n|; and n = 0 is not special-cased,
the division there yielding a non-finite result. -/
theorem calculatePayout_american_odds (s : ℚ) (l : String) :
    (parseFloatQ (stripOdds l) = none → calculatePayout s l = none) ∧
    ∀ n : ℚ, parseFloatQ (stripOdds l) = some n →
      (0 < n → calculatePayout s l = some (.fin (s * n / 100))) ∧
      (n < 0 → calculatePayout s l = some (.fin (s * 100 / |n|))) ∧
      (n = 0 → ∃ v, calculatePayout s l = some v ∧ v.isFinite = false) := by
  constructor
  · intro h
    simp [calculatePayout, h]
  · intro n hn
    refine ⟨?_, ?_, ?_⟩
    · intro hpos
      simp only [calculatePayout, hn, if_pos hpos, jsMul, Option.some.injEq, JSNum.fin.injEq]
      ring
    · intro hneg
      have h1 : ¬ n > 0 := by linarith
      have h2 : |n| ≠ 0 := abs_ne_zero.mpr (ne_of_lt hneg)
      simp only [calculatePayout, hn, if_neg h1, jsDiv, if_neg h2, jsMul, Option.some.injEq,
        JSNum.fin.injEq]
      ring
    · intro h0
      subst h0
      refine ⟨jsMul (jsDiv 100 |(0 : ℚ)|) s, ?_, ?_⟩
      · simp [calculatePayout, hn]
      · have hd : jsDiv 100 |(0 : ℚ)| = JSNum.inf := by norm_num [jsDiv]
        rw [hd]
        simp only [jsMul]
        split_ifs <;> rfl

/-- Witness for C1 at the claim's concrete inputs: stake 100 with line
"+150" pays 150, with line "-110" pays 1000/11 (≈ 90.91), and the
non-numeric line "PK" yields null. -/
theorem calculatePayout_american_odds_witness :
    calculatePayout 100 "+150" = some (.fin 150) ∧
    calculatePayout 100 "-110" = some (.fin (1000 / 11)) ∧
    calculatePayout 100 "PK" = none := by
  refine ⟨?_, ?_, ?_⟩
  · have hp : parseFloatQ (stripOdds "+150") = some 150 := by
      have hs : parseDecimalSyntax (stripOdds "+150").data =
          some ⟨false, ['1', '5', '0'], []⟩ := by decide
      have h : digitsVal ['1', '5', '0'] = 150 := by decide
      simp [parseFloatQ, hs, DecLit.val, h, digitsVal_nil]
    have := ((calculatePayout_american_odds 100 "+150").2 150 hp).1 (by norm_num)
    rw [this]
    norm_num
  · have hp : parseFloatQ (stripOdds "-110") = some (-110) := by
      have hs : parseDecimalSyntax (stripOdds "-110").data =
          some ⟨true, ['1', '1', '0'], []⟩ := by decide
      have h : digitsVal ['1', '1', '0'] = 110 := by decide
      simp [parseFloatQ, hs, DecLit.val, h, digitsVal_nil]
    have := ((calculatePayout_american_odds 100 "-110").2 (-110) hp).2.1 (by norm_num)
    rw [this]
    norm_num
  · have hp : parseFloatQ (stripOdds "PK") = none := by
      have hs : parseDecimalSyntax (stripOdds "PK").data = none := by decide
      simp [parseFloatQ, hs]
    exact (calculatePayout_american_odds 100 "PK").1 hp

/-! ## Wager active-state gating (WagerCard.tsx and WagerDetail) -/

/-- The isActive computation shared by WagerCard and WagerDetail:
status === pending and not archived. -/
def wagerIsActive (w : Wager) : Bool :=
  (w.status == WagerStatus.pending) && !w.archived

/-- Whether WagerCard renders its Update Status button: the source
guards it with isActive and the showActions prop (default true). -/
def wagerCardShowsStatusControl (w : Wager) (showActions : Bool) : Bool :=
  wagerIsActive w && showActions

/-- Whether WagerDetail renders its status-update action row: the
source guards it with isActive alone. -/
def wagerDetailShowsStatusControls (w : Wager) : Bool :=
  wagerIsActive w

/-- C2: a wager is treated as active exactly when its status is pending
and it is not archived, and (with WagerCard's default showActions) the
status-change controls of WagerCard and WagerDetail are rendered if and
only if the wager is active; an archived wager, or one with any
non-pending status, shows none. -/
theorem wager_active_state_gating (w : Wager) :
    (wagerIsActive w = true ↔ w.status = WagerStatus.pending ∧ w.archived = false) ∧
    wagerCardShowsStatusControl w true = wagerIsActive w ∧
    wagerDetailShowsStatusControls w = wagerIsActive w ∧
    (w.status = WagerStatus.pending ∧ w.archived = false →
      wagerCardShowsStatusControl w true = true ∧
      wagerDetailShowsStatusControls w = true) ∧
    (w.archived = true →
      wagerCardShowsStatusControl w true = false ∧
      wagerDetailShowsStatusControls w = false) ∧
    (w.status ≠ WagerStatus.pending →
      wagerCardShowsStatusControl w true = false ∧
      wagerDetailShowsStatusControls w = false) := by
  have hiff : wagerIsActive w = true ↔ w.status = WagerStatus.pending ∧ w.archived = false := by
    simp [wagerIsActive, Bool.and_eq_true, beq_iff_eq, Bool.not_eq_true']
  refine ⟨hiff, by simp [wagerCardShowsStatusControl], rfl, ?_, ?_, ?_⟩
  · intro h
    have := hiff.mpr h
    simp [wagerCardShowsStatusControl, wagerDetailShowsStatusControls, this]
  · intro h
    have : wagerIsActive w = false := by
      simp [wagerIsActive, h]
    simp [wagerCardShowsStatusControl, wagerDetailShowsStatusControls, this]
  · intro h
    have : wagerIsActive w = false := by
      simp [wagerIsActive, beq_iff_eq, h]
    simp [wagerCardShowsStatusControl, wagerDetailShowsStatusControls, this]

/-- Witness for C2: a concrete pending, non-archived wager renders the
controls in both components; the same wager archived, or resolved as
won, renders none. -/
theorem wager_active_state_gating_witness :
    (wagerCardShowsStatusControl ⟨1, .pending, false, 100, "-110"⟩ true = true ∧
      wagerDetailShowsStatusControls ⟨1, .pending, false, 100, "-110"⟩ = true) ∧
    (wagerCardShowsStatusControl ⟨1, .pending, true, 100, "-110"⟩ true = false ∧
      wagerDetailShowsStatusControls ⟨1, .pending, true, 100, "-110"⟩ = false) ∧
    (wagerCardShowsStatusControl ⟨1, .won, false, 100, "-110"⟩ true = false ∧
      wagerDetailShowsStatusControls ⟨1, .won, false, 100, "-110"⟩ = false) :=
  ⟨(wager_active_state_gating ⟨1, .pending, false, 100, "-110"⟩).2.2.2.1 ⟨rfl, rfl⟩,
   (wager_active_state_gating ⟨1, .pending, true, 100, "-110"⟩).2.2.2.2.1 rfl,
   (wager_active_state_gating ⟨1, .won, false, 100, "-110"⟩).2.2.2.2.2 (by decide)⟩

/-! ## tokenStorage.getUser (services/auth.ts) -/

/-- Result of a JavaScript computation that can throw an exception. -/
inductive JSResult (α : Type) where
  | ok (a : α)
  | exn
deriving DecidableEq, Repr

/-- tokenStorage.getUser from services/auth.ts: reads the stored user
text (none models an absent key), treats a falsy value (absent or
empty string) as null, and otherwise runs JSON.parse on it with no
try/catch around it, so a parse exception propagates. JSON.parse at
type User is the jsonParse parameter. -/
def getUser (jsonParse : String → JSResult User) (stored : Option String) :
    JSResult (Option User) :=
  match stored with
  | none => .ok none
  | some s =>
      if s = "" then .ok none
      else
        match jsonParse s with
        | .ok u => .ok (some u)
        | .exn => .exn

/-- C3 counterexample: it is not the case that getUser returns null
(rather than raising) whenever the stored text is malformed; a stored
string on which JSON.parse throws makes getUser throw, because the
source has no try/catch. -/
theorem getUser_malformed_raises :
    ¬ ∀ (jsonParse : String → JSResult User) (s : String),
        jsonParse s = .exn → getUser jsonParse (some s) = .ok none := by
  intro h
  have hne : ("not json" : String) ≠ "" := by decide
  have := h (fun _ => .exn) "not json" rfl
  rw [getUser, if_neg hne] at this
  exact JSResult.noConfusion this

/-- C3 amended: getUser returns null when the stored record is absent
or the empty string, returns the deserialized user when JSON.parse
succeeds, and propagates the exception when JSON.parse throws on
malformed data. -/
theorem getUser_amended (jsonParse : String → JSResult User) :
    getUser jsonParse none = .ok none ∧
    getUser jsonParse (some "") = .ok none ∧
    (∀ s u, s ≠ "" → jsonParse s = .ok u →
      getUser jsonParse (some s) = .ok (some u)) ∧
    (∀ s, s ≠ "" → jsonParse s = .exn → getUser jsonParse (some s) = .exn) := by
  refine ⟨rfl, by simp [getUser], ?_, ?_⟩
  · intro s u hs hp
    rw [getUser, if_neg hs, hp]
  · intro s hs hp
    rw [getUser, if_neg hs, hp]

/-- Witness for C3's amended statement at concrete inputs. -/
theorem getUser_amended_witness :
    getUser (fun _ => JSResult.exn) none = .ok none ∧
    getUser (fun _ => JSResult.exn) (some "oops") = JSResult.exn :=
  ⟨(getUser_amended (fun _ => JSResult.exn)).1,
   (getUser_amended (fun _ => JSResult.exn)).2.2.2 "oops" (by decide) rfl⟩

/-! ## isTokenExpired (utils/auth) -/

/-- A decoded JWT payload: its exp claim in Unix seconds, when present. -/
structure JwtPayload where
  exp : Option ℚ
deriving DecidableEq

/-- Model of the JavaScript String.prototype.split built-in with a
single-character separator: cuts the character list at every separator
occurrence, keeping empty pieces, with one piece even for the empty
string. -/
def splitChars (sep : Char) : List Char → List (List Char)
  | [] => [[]]
  | c :: cs =>
      if c = sep then [] :: splitChars sep cs
      else
        match splitChars sep cs with
        | [] => [[c]]
        | piece :: pieces => (c :: piece) :: pieces

/-- token.split of the dot character, indexed at 1: the middle segment
of the token, when the split produces a second element. -/
def middleSegment (token : String) : Option String :=
  ((splitChars '.' token.data).map fun l => (⟨l⟩ : String)).get? 1

/-- isTokenExpired from utils/auth: decodes the middle token segment as
base64 JSON (the decode parameter models the atob + JSON.parse
composite, none modelling a thrown decode error caught by the catch
branch, which returns true), then evaluates payload.exp < currentTime;
in JavaScript that comparison is false when exp is absent. A missing
middle segment also throws inside the try, hence true. -/
def isTokenExpired (decode : String → Option JwtPayload) (now : ℚ) (token : String) :
    Bool :=
  match middleSegment token with
  | none => true
  | some seg =>
      match decode seg with
      | none => true
      | some payload =>
          match payload.exp with
          | some e => decide (e < now)
          | none => false

/-- C4: a token whose decoded exp claim lies in the past is reported
expired, one whose exp lies in the future is reported valid, and every
token whose middle segment is missing or cannot be decoded as base64
JSON is reported expired (fail-closed). -/
theorem isTokenExpired_boundary (decode : String → Option JwtPayload) (now : ℚ)
    (token : String) :
    (∀ seg payload e, middleSegment token = some seg → decode seg = some payload →
      payload.exp = some e →
      (e < now → isTokenExpired decode now token = true) ∧
      (now < e → isTokenExpired decode now token = false)) ∧
    (∀ seg, middleSegment token = some seg → decode seg = none →
      isTokenExpired decode now token = true) ∧
    (middleSegment token = none → isTokenExpired decode now token = true) := by
  refine ⟨?_, ?_, ?_⟩
  · intro seg payload e hseg hdec hexp
    constructor
    · intro hlt
      simp [isTokenExpired, hseg, hdec, hexp, hlt]
    · intro hgt
      simp [isTokenExpired, hseg, hdec, hexp, not_lt.mpr (le_of_lt hgt)]
  · intro seg hseg hdec
    simp [isTokenExpired, hseg, hdec]
  · intro hseg
    simp [isTokenExpired, hseg]

/-- Witness for C4: with a decode model giving exp = 3600 for the
payload segment, the token is expired at time 7200 (exp 3600 seconds in
the past) and valid at time 0 (exp 3600 seconds in the future); an
undecodable token is expired. -/
theorem isTokenExpired_boundary_witness :
    isTokenExpired (fun s => if s = "p" then some ⟨some 3600⟩ else none) 7200 "h.p.s" = true ∧
    isTokenExpired (fun s => if s = "p" then some ⟨some 3600⟩ else none) 0 "h.p.s" = false ∧
    isTokenExpired (fun _ => none) 0 "h.p.s" = true := by
  have hseg : middleSegment "h.p.s" = some "p" := by decide
  refine ⟨?_, ?_, ?_⟩
  · exact (((isTokenExpired_boundary (fun s => if s = "p" then some ⟨some 3600⟩ else none)
      7200 "h.p.s").1 "p" ⟨some 3600⟩ 3600 hseg (by simp) rfl).1 (by norm_num))
  · exact (((isTokenExpired_boundary (fun s => if s = "p" then some ⟨some 3600⟩ else none)
      0 "h.p.s").1 "p" ⟨some 3600⟩ 3600 hseg (by simp) rfl).2 (by norm_num))
  · exact ((isTokenExpired_boundary (fun _ => none) 0 "h.p.s").2.1 "p" hseg rfl)

/-- C10: a token whose middle segment decodes to a well-formed payload
that has no exp claim is reported not expired: the absent-exp
comparison is false and the fail-closed branch applies only to decode
failures. -/
theorem isTokenExpired_missing_exp (decode : String → Option JwtPayload) (now : ℚ)
    (token : String) :
    ∀ seg payload, middleSegment token = some seg → decode seg = some payload →
      payload.exp = none → isTokenExpired decode now token = false := by
  intro seg payload hseg hdec hexp
  simp [isTokenExpired, hseg, hdec, hexp]

/-- Witness for C10: a token whose payload decodes to the empty object
is reported not expired at a concrete time. -/
theorem isTokenExpired_missing_exp_witness :
    isTokenExpired (fun s => if s = "e30" then some ⟨none⟩ else none) 7200 "h.e30.s" = false :=
  isTokenExpired_missing_exp (fun s => if s = "e30" then some ⟨none⟩ else none) 7200
    "h.e30.s" "e30" ⟨none⟩ (by decide) (by simp) rfl

/-! ## Query cache after useUpdateWagerStatus (src/unnamed/part_008) -/

/-- Parameters of a wager-list query, part of its cache key. -/
structure WagerListParams where
  page : Nat
  search : String
deriving DecidableEq, Repr

/-- One element of a query key array. -/
inductive KeyPart where
  | str (s : String)
  | num (n : Nat)
  | params (p : WagerListParams)
deriving DecidableEq, Repr

/-- A query key is an array of parts, as in the query library. -/
abbrev QueryKey := List KeyPart

/-- Data stored in a cache entry: a single wager or a wager list. -/
inductive CacheData where
  | wagerData (w : Wager)
  | listData (ws : List Wager)
deriving DecidableEq, Repr

/-- A cache entry: its data and whether it has been marked stale. -/
structure CacheEntry where
  data : CacheData
  stale : Bool
deriving DecidableEq, Repr

/-- The client-side query cache: a partial map from keys to entries. -/
structure QueryCache where
  entries : QueryKey → Option CacheEntry

/-- Key of the single-wager query, [QUERY_KEYS.WAGER, id]. -/
def wagerKey (id : Nat) : QueryKey :=
  [.str "wager", .num id]

/-- Key of a wager-list query, [QUERY_KEYS.WAGERS, params]. -/
def wagersKey (p : WagerListParams) : QueryKey :=
  [.str "wagers", .params p]

/-- Modelled from the query library: setQueryData replaces exactly the
entry with the given key by fresh (non-stale) data. -/
def setQueryData (c : QueryCache) (k : QueryKey) (d : CacheData) : QueryCache :=
  ⟨fun k2 => if k2 = k then some ⟨d, false⟩ else c.entries k2⟩

/-- Modelled from the query library: invalidateQueries marks every
existing entry whose key starts with the given filter key as stale and
leaves every other entry alone. -/
def invalidateQueries (c : QueryCache) (filterKey : QueryKey) : QueryCache :=
  ⟨fun k =>
    match c.entries k with
    | none => none
    | some e => if k.take filterKey.length = filterKey then some ⟨e.data, true⟩ else some e⟩

/-- The onSuccess handler of useUpdateWagerStatus: write the returned
wager into [QUERY_KEYS.WAGER, id], then invalidate [QUERY_KEYS.WAGERS]. -/
def updateWagerStatusOnSuccess (c : QueryCache) (data : Wager) (id : Nat) : QueryCache :=
  invalidateQueries (setQueryData c (wagerKey id) (.wagerData data)) [.str "wagers"]

/-- C5: after a successful status update for wager id, the single-item
cache entry for id holds the server's returned wager, fresh (no refetch
needed); every existing wager-list entry is marked stale with its data
untouched; and no other wager's single-item entry changes. -/
theorem updateWagerStatus_cache_effect (c : QueryCache) (d : Wager) (id : Nat) :
    (updateWagerStatusOnSuccess c d id).entries (wagerKey id) =
      some ⟨.wagerData d, false⟩ ∧
    (∀ p : WagerListParams,
      (updateWagerStatusOnSuccess c d id).entries (wagersKey p) =
        (c.entries (wagersKey p)).map fun e => ⟨e.data, true⟩) ∧
    (∀ j : Nat, j ≠ id →
      (updateWagerStatusOnSuccess c d id).entries (wagerKey j) =
        c.entries (wagerKey j)) := by
  refine ⟨?_, ?_, ?_⟩
  · have hne : (wagerKey id).take 1 ≠ [KeyPart.str "wagers"] := by
      simp [wagerKey]
    simp [updateWagerStatusOnSuccess, invalidateQueries, setQueryData, hne]
  · intro p
    have hk : wagersKey p ≠ wagerKey id := by
      simp [wagersKey, wagerKey]
    have hpre : (wagersKey p).take 1 = [KeyPart.str "wagers"] := by
      simp [wagersKey]
    cases hc : c.entries (wagersKey p) with
    | none => simp [updateWagerStatusOnSuccess, invalidateQueries, setQueryData, hk, hc]
    | some e => simp [updateWagerStatusOnSuccess, invalidateQueries, setQueryData, hk, hc, hpre]
  · intro j hj
    have hk : wagerKey j ≠ wagerKey id := by
      simp [wagerKey, hj]
    have hne : (wagerKey j).take 1 ≠ [KeyPart.str "wagers"] := by
      simp [wagerKey]
    cases hc : c.entries (wagerKey j) with
    | none => simp [updateWagerStatusOnSuccess, invalidateQueries, setQueryData, hk, hc]
    | some e => simp [updateWagerStatusOnSuccess, invalidateQueries, setQueryData, hk, hc, hne]

/-- Witness for C5 on a concrete one-entry cache: updating wager 7
writes its entry fresh, and wager 3's (absent) entry stays absent. -/
theorem updateWagerStatus_cache_effect_witness :
    (updateWagerStatusOnSuccess ⟨fun _ => none⟩ ⟨7, .won, false, 50, "+120"⟩ 7).entries
      (wagerKey 7) = some ⟨.wagerData ⟨7, .won, false, 50, "+120"⟩, false⟩ ∧
    (updateWagerStatusOnSuccess ⟨fun _ => none⟩ ⟨7, .won, false, 50, "+120"⟩ 7).entries
      (wagerKey 3) = none := by
  have h := updateWagerStatus_cache_effect ⟨fun _ => none⟩ ⟨7, .won, false, 50, "+120"⟩ 7
  exact ⟨h.1, (h.2.2 3 (by decide)).trans rfl⟩

/-! ## Bulk status update fan-out (WagerList.tsx) -/

/-- handleBulkStatusUpdate from WagerList: iterates the selected-wager
id set (insertion-ordered, duplicate-free), invoking the single-item
status-update handler once per id with the chosen status, then clears
the selection. The result records the single-item handler calls made,
the batch API calls made (this path makes none), and the new
selection. -/
def handleBulkStatusUpdate (selectedWagers : List Nat) (status : WagerStatus) :
    List (Nat × WagerStatus) × List (List Nat × WagerStatus) × List Nat :=
  (selectedWagers.map fun id => (id, status), [], [])

/-- C6: choosing a bulk status action with n selected wagers invokes
the single-item status-update handler exactly n times, once per
selected id, each call carrying the chosen status; afterwards the
selection is empty and no batch API call was made. -/
theorem bulk_status_update_fan_out (sel : List Nat) (status : WagerStatus)
    (hnd : sel.Nodup) :
    (handleBulkStatusUpdate sel status).1 = sel.map (fun id => (id, status)) ∧
    (handleBulkStatusUpdate sel status).1.length = sel.length ∧
    (∀ id, id ∈ sel → (id, status) ∈ (handleBulkStatusUpdate sel status).1) ∧
    (∀ call ∈ (handleBulkStatusUpdate sel status).1, call.2 = status ∧ call.1 ∈ sel) ∧
    (handleBulkStatusUpdate sel status).1.Nodup ∧
    (handleBulkStatusUpdate sel status).2.1 = [] ∧
    (handleBulkStatusUpdate sel status).2.2 = [] := by
  refine ⟨rfl, by simp [handleBulkStatusUpdate], ?_, ?_, ?_, rfl, rfl⟩
  · intro id hid
    simp [handleBulkStatusUpdate]
    exact hid
  · intro call hcall
    simp [handleBulkStatusUpdate] at hcall
    obtain ⟨id, hid, hEq⟩ := hcall
    subst hEq
    exact ⟨rfl, hid⟩
  · exact hnd.map fun a b h => congrArg Prod.fst h

/-- Witness for C6: selecting the three wagers 1, 2, 3 and choosing
Mark as Won produces exactly the three calls (1, won), (2, won),
(3, won), no batch call, and an empty selection. -/
theorem bulk_status_update_fan_out_witness :
    (handleBulkStatusUpdate [1, 2, 3] .won).1 = [(1, .won), (2, .won), (3, .won)] ∧
    (handleBulkStatusUpdate [1, 2, 3] .won).2.1 = [] ∧
    (handleBulkStatusUpdate [1, 2, 3] .won).2.2 = [] := by
  have h := bulk_status_update_fan_out [1, 2, 3] .won (by decide)
  exact ⟨h.1, h.2.2.2.2.2⟩

/-! ## SocketService reconnect backoff (src/unnamed/part_009) -/

/-- The events the socket service reacts to: a successful connect, a
disconnect carrying its reason string, and a connection error. -/
inductive SocketEvent where
  | connectOk
  | disconnected (reason : String)
  | connectError
deriving DecidableEq, Repr

/-- maxReconnectAttempts of SocketService. -/
def maxReconnectAttempts : Nat := 5

/-- attemptReconnect from SocketService: below the bound it increments
the attempt counter and schedules a reconnect after
2 ^ counter * 1000 milliseconds (counter already incremented); at the
bound it does nothing. Returns the new counter and the scheduled
delay, when one was scheduled. -/
def attemptReconnect (reconnectAttempts : Nat) : Nat × Option Nat :=
  if reconnectAttempts < maxReconnectAttempts then
    (reconnectAttempts + 1, some (2 ^ (reconnectAttempts + 1) * 1000))
  else
    (reconnectAttempts, none)

/-- The event handling wired up in setupEventListeners: a successful
connect resets the counter; a server-initiated disconnect does not
reconnect; every other disconnect and every connection error go
through attemptReconnect. -/
def handleSocketEvent (reconnectAttempts : Nat) : SocketEvent → Nat × Option Nat
  | .connectOk => (0, none)
  | .disconnected reason =>
      if reason = "io server disconnect" then (reconnectAttempts, none)
      else attemptReconnect reconnectAttempts
  | .connectError => attemptReconnect reconnectAttempts

/-- Folding handleSocketEvent over an event trace, collecting the
scheduled reconnect delays in order. -/
def runSocketEvents (reconnectAttempts : Nat) : List SocketEvent → Nat × List Nat
  | [] => (reconnectAttempts, [])
  | e :: es =>
      let step := handleSocketEvent reconnectAttempts e
      let rest := runSocketEvents step.1 es
      (rest.1, step.2.toList ++ rest.2)

/-- The events that trigger the automatic reconnect path: connection
errors and disconnects whose reason is not the server-initiated one. -/
def isUnexpectedFailure : SocketEvent → Bool
  | .connectOk => false
  | .disconnected reason => !(reason == "io server disconnect")
  | .connectError => true

theorem handleSocketEvent_failure (a : Nat) (e : SocketEvent)
    (h : isUnexpectedFailure e = true) :
    handleSocketEvent a e = attemptReconnect a := by
  cases e with
  | connectOk => simp [isUnexpectedFailure] at h
  | connectError => rfl
  | disconnected reason =>
      simp [isUnexpectedFailure] at h
      simp [handleSocketEvent, h]

theorem attemptReconnect_lt (a : Nat) (h : a < 5) :
    attemptReconnect a = (a + 1, some (2 ^ (a + 1) * 1000)) := by
  simp [attemptReconnect, maxReconnectAttempts, h]

theorem attemptReconnect_ge (a : Nat) (h : ¬a < 5) :
    attemptReconnect a = (a, none) := by
  simp [attemptReconnect, maxReconnectAttempts, h]

theorem runSocketEvents_all_failures (events : List SocketEvent) :
    ∀ a : Nat, a ≤ 5 → (∀ e ∈ events, isUnexpectedFailure e = true) →
      runSocketEvents a events =
        (min (a + events.length) 5,
         (List.range' (a + 1) (min (a + events.length) 5 - a)).map
           fun k => 2 ^ k * 1000) := by
  induction events with
  | nil =>
      intro a ha _
      simp [runSocketEvents]
      omega
  | cons e es ih =>
      intro a ha hfail
      have he : isUnexpectedFailure e = true := hfail e (List.mem_cons_self e es)
      have hes : ∀ x ∈ es, isUnexpectedFailure x = true :=
        fun x hx => hfail x (List.mem_cons_of_mem e hx)
      rw [runSocketEvents]
      rw [handleSocketEvent_failure a e he]
      by_cases hb : a < 5
      · rw [attemptReconnect_lt a hb]
        rw [ih (a + 1) hb hes]
        have hlen : a + (e :: es).length = a + 1 + es.length := by
          simp [List.length_cons]
          omega
        rw [hlen]
        have hcnt : min (a + 1 + es.length) 5 - a =
            (min (a + 1 + es.length) 5 - (a + 1)) + 1 := by omega
        rw [hcnt, List.range'_succ]
        simp
      · have ha5 : a = 5 := by omega
        subst ha5
        rw [attemptReconnect_ge 5 hb]
        rw [ih 5 (by omega) hes]
        have h1 : min (5 + es.length) 5 = 5 := by omega
        have h2 : min (5 + (e :: es).length) 5 = 5 := by
          simp [List.length_cons]
        rw [h1, h2]
        simp

/-- C7: over any trace of non-server-initiated disconnects and
connection errors starting from a fresh connection, the scheduled
automatic reconnects are exactly the first min(n, 5) delays
2^1, ..., 2^5 seconds (in milliseconds), so at most 5 attempts are
ever scheduled and after the 5th consecutive failure none is; a
failure arriving at the 5-attempt bound schedules nothing; and the
attempt counter resets only on a successful connect. -/
theorem socket_reconnect_backoff (events : List SocketEvent)
    (hfail : ∀ e ∈ events, isUnexpectedFailure e = true) :
    (runSocketEvents 0 events).2 =
      (List.range' 1 (min events.length 5)).map (fun k => 2 ^ k * 1000) ∧
    (runSocketEvents 0 events).2.length ≤ 5 ∧
    (∀ e, isUnexpectedFailure e = true → handleSocketEvent 5 e = (5, none)) ∧
    (∀ a : Nat, ∀ e : SocketEvent, (handleSocketEvent a e).1 = 0 → 0 < a →
      e = SocketEvent.connectOk) := by
  have h := runSocketEvents_all_failures events 0 (by omega) hfail
  refine ⟨?_, ?_, ?_, ?_⟩
  · rw [h]
    simp
  · rw [h]
    simp [List.length_range']
  · intro e he
    rw [handleSocketEvent_failure 5 e he, attemptReconnect_ge 5 (by omega)]
  · intro a e h0 hpos
    cases e with
    | connectOk => rfl
    | connectError =>
        exfalso
        have hh : handleSocketEvent a SocketEvent.connectError = attemptReconnect a := rfl
        rw [hh] at h0
        by_cases hb : a < 5
        · rw [attemptReconnect_lt a hb] at h0
          simp at h0
        · rw [attemptReconnect_ge a hb] at h0
          omega
    | disconnected reason =>
        exfalso
        by_cases hr : reason = "io server disconnect"
        · simp [handleSocketEvent, hr] at h0
          omega
        · have hh : handleSocketEvent a (SocketEvent.disconnected reason) =
              attemptReconnect a := by
            simp [handleSocketEvent, hr]
          rw [hh] at h0
          by_cases hb : a < 5
          · rw [attemptReconnect_lt a hb] at h0
            simp at h0
          · rw [attemptReconnect_ge a hb] at h0
            omega

/-- Witness for C7: six consecutive connection errors schedule exactly
the five reconnects with delays 2, 4, 8, 16, 32 seconds and nothing
more. -/
theorem socket_reconnect_backoff_witness :
    (runSocketEvents 0 (List.replicate 6 SocketEvent.connectError)).2 =
      [2000, 4000, 8000, 16000, 32000] := by
  have h := socket_reconnect_backoff (List.replicate 6 SocketEvent.connectError) (by decide)
  rw [h.1]
  decide

/-! ## formatAuthError (utils/auth) -/

/-- The data object carried by an error response, with its optional
detail string. -/
structure AxiosErrorData where
  detail : Option String
deriving DecidableEq, Repr

/-- The response object of an HTTP error: optional data and status. -/
structure AxiosErrorResponse where
  data : Option AxiosErrorData
  status : Option Int
deriving DecidableEq, Repr

/-- An error value as formatAuthError sees it: an optional response
and an optional message. -/
structure JsError where
  response : Option AxiosErrorResponse
  message : Option String
deriving DecidableEq, Repr

/-- JavaScript truthiness of an optional string: undefined and the
empty string are falsy. -/
def truthyString : Option String → Option String
  | some s => if s = "" then none else some s
  | none => none

/-- The optional chain error.response?.data?.detail. -/
def errorDetail (e : JsError) : Option String :=
  (e.response.bind AxiosErrorResponse.data).bind AxiosErrorData.detail

/-- The optional chain error.response?.status. -/
def errorStatus (e : JsError) : Option Int :=
  e.response.bind AxiosErrorResponse.status

/-- The JavaScript comparison error.response?.status >= 500, false on
an absent status. -/
def statusAtLeast500 (e : JsError) : Bool :=
  match errorStatus e with
  | some st => decide (500 ≤ st)
  | none => false

/-- formatAuthError from utils/auth: a truthy structured detail is
returned verbatim; otherwise status 401, 403 and >= 500 map to their
fixed messages in that order; otherwise a truthy message field is
returned; otherwise the generic fallback. -/
def formatAuthError (e : JsError) : String :=
  match truthyString (errorDetail e) with
  | some d => d
  | none =>
      if errorStatus e = some 401 then "Invalid username or password"
      else if errorStatus e = some 403 then "Access denied"
      else if statusAtLeast500 e then "Server error. Please try again later."
      else
        match truthyString e.message with
        | some m => m
        | none => "An unexpected error occurred"

/-- C8: formatAuthError applies exactly this precedence: a structured
backend detail string is returned verbatim; otherwise status 401 gives
"Invalid username or password", 403 gives "Access denied", any status
at least 500 gives the server-error message; otherwise a present
message field is returned; otherwise the generic fallback. -/
theorem formatAuthError_precedence (e : JsError) :
    (∀ d, truthyString (errorDetail e) = some d → formatAuthError e = d) ∧
    (truthyString (errorDetail e) = none →
      (errorStatus e = some 401 → formatAuthError e = "Invalid username or password") ∧
      (errorStatus e = some 403 → formatAuthError e = "Access denied") ∧
      (∀ st, errorStatus e = some st → st ≠ 401 → st ≠ 403 → 500 ≤ st →
        formatAuthError e = "Server error. Please try again later.") ∧
      ((errorStatus e = none ∨
          ∃ st, errorStatus e = some st ∧ st ≠ 401 ∧ st ≠ 403 ∧ st < 500) →
        (∀ m, truthyString e.message = some m → formatAuthError e = m) ∧
        (truthyString e.message = none →
          formatAuthError e = "An unexpected error occurred"))) := by
  constructor
  · intro d hd
    simp [formatAuthError, hd]
  · intro hnd
    refine ⟨?_, ?_, ?_, ?_⟩
    · intro h401
      simp [formatAuthError, hnd, h401]
    · intro h403
      simp [formatAuthError, hnd, h403]
    · intro st hst h401 h403 h500
      have e401 : ¬ errorStatus e = some 401 := by
        rw [hst]
        simp [h401]
      have e403 : ¬ errorStatus e = some 403 := by
        rw [hst]
        simp [h403]
      have e500 : statusAtLeast500 e = true := by
        simp [statusAtLeast500, hst, h500]
      simp [formatAuthError, hnd, e401, e403, e500]
    · intro hcases
      have e401 : ¬ errorStatus e = some 401 := by
        rcases hcases with h | ⟨st, hst, h1, _, _⟩
        · simp [h]
        · rw [hst]
          simp [h1]
      have e403 : ¬ errorStatus e = some 403 := by
        rcases hcases with h | ⟨st, hst, _, h2, _⟩
        · simp [h]
        · rw [hst]
          simp [h2]
      have e500 : statusAtLeast500 e = false := by
        rcases hcases with h | ⟨st, hst, _, _, h3⟩
        · simp [statusAtLeast500, h]
        · simp [statusAtLeast500, hst]
          omega
      constructor
      · intro m hm
        simp [formatAuthError, hnd, e401, e403, e500, hm]
      · intro hm
        simp [formatAuthError, hnd, e401, e403, e500, hm]

/-- Witness for C8 across all six branches at concrete error values:
a structured detail wins, bare 401/403/500 map to their messages, a
message-only error returns its message, and the empty error returns
the generic fallback. -/
theorem formatAuthError_precedence_witness :
    formatAuthError ⟨some ⟨some ⟨some "Invalid credentials"⟩, some 401⟩, none⟩ =
      "Invalid credentials" ∧
    formatAuthError ⟨some ⟨none, some 401⟩, none⟩ = "Invalid username or password" ∧
    formatAuthError ⟨some ⟨none, some 403⟩, none⟩ = "Access denied" ∧
    formatAuthError ⟨some ⟨none, some 500⟩, none⟩ =
      "Server error. Please try again later." ∧
    formatAuthError ⟨none, some "Network error"⟩ = "Network error" ∧
    formatAuthError ⟨none, none⟩ = "An unexpected error occurred" := by
  refine ⟨?_, ?_, ?_, ?_, ?_, ?_⟩
  · exact (formatAuthError_precedence
      ⟨some ⟨some ⟨some "Invalid credentials"⟩, some 401⟩, none⟩).1
      "Invalid credentials" (by simp [truthyString, errorDetail])
  · exact ((formatAuthError_precedence ⟨some ⟨none, some 401⟩, none⟩).2
      (by simp [truthyString, errorDetail])).1 (by simp [errorStatus])
  · exact ((formatAuthError_precedence ⟨some ⟨none, some 403⟩, none⟩).2
      (by simp [truthyString, errorDetail])).2.1 (by simp [errorStatus])
  · exact ((formatAuthError_precedence ⟨some ⟨none, some 500⟩, none⟩).2
      (by simp [truthyString, errorDetail])).2.2.1 500 (by simp [errorStatus])
      (by decide) (by decide) (by norm_num)
  · exact (((formatAuthError_precedence ⟨none, some "Network error"⟩).2
      (by simp [truthyString, errorDetail])).2.2.2
      (Or.inl (by simp [errorStatus]))).1 "Network error" (by simp [truthyString])
  · exact (((formatAuthError_precedence ⟨none, none⟩).2
      (by simp [truthyString, errorDetail])).2.2.2
      (Or.inl (by simp [errorStatus]))).2 (by simp [truthyString])

/-! ## Navigation active-tab selection (Navigation.tsx) -/

/-- A navigation item: its label, path and admin-only flag (the icon
carries no behavior). -/
structure NavItem where
  label : String
  path : String
  adminOnly : Bool
deriving DecidableEq, Repr

/-- The navigationItems array of Navigation.tsx. -/
def navigationItems : List NavItem :=
  [⟨"Dashboard", "/", false⟩,
   ⟨"Wagers", "/wagers", false⟩,
   ⟨"Live Tracking", "/live", false⟩,
   ⟨"Analytics", "/analytics", false⟩,
   ⟨"Admin", "/admin", true⟩]

/-- The role filter of Navigation: an item is dropped exactly when it
is admin-only and the user's role (none models no user) is not admin. -/
def visibleItems (userRole : Option Role) : List NavItem :=
  navigationItems.filter fun item =>
    !(item.adminOnly && decide (userRole ≠ some Role.admin))

/-- Initial-segment test on character lists. -/
def charsStartWith : List Char → List Char → Bool
  | _, [] => true
  | [], _ :: _ => false
  | c :: cs, d :: ds => c == d && charsStartWith cs ds

/-- Model of the JavaScript String.prototype.startsWith built-in. -/
def strStartsWith (s pat : String) : Bool :=
  charsStartWith s.data pat.data

/-- The findIndex predicate of Navigation: the root item matches only
the exact root path; every other item matches when the current path
starts with the item's path. -/
def navMatches (currentPath : String) (item : NavItem) : Bool :=
  if item.path = "/" then currentPath == "/" else strStartsWith currentPath item.path

/-- Model of the JavaScript Array.prototype.findIndex built-in: index
of the first match, -1 when none. -/
def findIndexAux {α : Type} (p : α → Bool) : List α → Int → Int
  | [], _ => -1
  | a :: as, i => if p a then i else findIndexAux p as (i + 1)

/-- findIndex starting from index 0. -/
def findIndex {α : Type} (p : α → Bool) (l : List α) : Int :=
  findIndexAux p l 0

/-- The tab value in Navigation: currentIndex when non-negative,
otherwise 0 (the first visible tab). -/
def selectedIndex (visible : List NavItem) (currentPath : String) : Int :=
  let currentIndex := findIndex (navMatches currentPath) visible
  if currentIndex ≥ 0 then currentIndex else 0

theorem charsStartWith_iff (pat : List Char) :
    ∀ s, charsStartWith s pat = true ↔ ∃ t, s = pat ++ t := by
  induction pat with
  | nil =>
      intro s
      simp [charsStartWith]
  | cons d ds ih =>
      intro s
      cases s with
      | nil => simp [charsStartWith]
      | cons c cs =>
          simp only [charsStartWith, Bool.and_eq_true, beq_iff_eq, ih cs, List.cons_append,
            List.cons.injEq]
          constructor
          · rintro ⟨rfl, t, rfl⟩
            exact ⟨t, rfl, rfl⟩
          · rintro ⟨t, rfl, rfl⟩
            exact ⟨rfl, t, rfl⟩

theorem strStartsWith_iff (s pat : String) :
    strStartsWith s pat = true ↔ ∃ t : String, s = pat ++ t := by
  obtain ⟨sd⟩ := s
  obtain ⟨pd⟩ := pat
  rw [strStartsWith]
  rw [charsStartWith_iff pd sd]
  constructor
  · rintro ⟨t, rfl⟩
    exact ⟨⟨t⟩, rfl⟩
  · rintro ⟨⟨t⟩, ht⟩
    refine ⟨t, ?_⟩
    have hd : (String.mk pd ++ String.mk t).data = pd ++ t := rfl
    have h2 := congrArg String.data ht
    rw [hd] at h2
    exact h2

theorem findIndexAux_first {α : Type} (p : α → Bool) (l : List α) :
    ∀ (base : Int) (i : Nat) (a : α), l.get? i = some a → p a = true →
      (∀ j b, j < i → l.get? j = some b → p b = false) →
      findIndexAux p l base = base + i := by
  induction l with
  | nil =>
      intro base i a h
      simp at h
  | cons c cs ih =>
      intro base i a hget hp hfirst
      cases i with
      | zero =>
          have hc : c = a := by
            simpa using hget
          subst hc
          rw [findIndexAux, if_pos hp]
          simp
      | succ k =>
          have hc : p c = false := hfirst 0 c (Nat.succ_pos k) rfl
          rw [findIndexAux, if_neg (by simp [hc])]
          have hget2 : cs.get? k = some a := hget
          have hfirst2 : ∀ j b, j < k → cs.get? j = some b → p b = false := by
            intro j b hj hb
            exact hfirst (j + 1) b (by omega) hb
          rw [ih (base + 1) k a hget2 hp hfirst2]
          push_cast
          ring

theorem findIndexAux_none {α : Type} (p : α → Bool) (l : List α)
    (h : ∀ a ∈ l, p a = false) :
    ∀ base, findIndexAux p l base = -1 := by
  induction l with
  | nil =>
      intro base
      rfl
  | cons c cs ih =>
      intro base
      have hc : p c = false := h c (List.mem_cons_self c cs)
      rw [findIndexAux, if_neg (by simp [hc])]
      exact ih (fun a ha => h a (List.mem_cons_of_mem c ha)) (base + 1)

/-- C9: the selected tab is the first visible item matching the
current path, where the root item matches only the exact root path and
every other item matches exactly when its path is a prefix of the
current path; when no item matches, the first visible tab (index 0) is
selected. -/
theorem navigation_active_tab (visible : List NavItem) (p : String) :
    (∀ (i : Nat) (item : NavItem), visible.get? i = some item →
      navMatches p item = true →
      (∀ j itemJ, j < i → visible.get? j = some itemJ → navMatches p itemJ = false) →
      selectedIndex visible p = i) ∧
    ((∀ item ∈ visible, navMatches p item = false) → selectedIndex visible p = 0) ∧
    (∀ item : NavItem, item.path = "/" → (navMatches p item = true ↔ p = "/")) ∧
    (∀ item : NavItem, item.path ≠ "/" →
      (navMatches p item = true ↔ ∃ t : String, p = item.path ++ t)) := by
  refine ⟨?_, ?_, ?_, ?_⟩
  · intro i item hget hm hfirst
    have h := findIndexAux_first (navMatches p) visible 0 i item hget hm hfirst
    rw [selectedIndex, findIndex, h]
    have hnn : (0 : Int) + i ≥ 0 := by positivity
    rw [if_pos hnn]
    omega
  · intro hnone
    have h := findIndexAux_none (navMatches p) visible hnone 0
    rw [selectedIndex, findIndex, h]
    norm_num
  · intro item hroot
    simp [navMatches, hroot]
  · intro item hne
    rw [navMatches, if_neg hne]
    exact strStartsWith_iff p item.path

/-- Witness for C9: for a non-admin user, path /wagers/123 selects the
/wagers item at index 1 (the root item does not match it), and path /
selects the root item at index 0. -/
theorem navigation_active_tab_witness :
    selectedIndex (visibleItems (some Role.user)) "/wagers/123" = 1 ∧
    (visibleItems (some Role.user)).get? 1 = some ⟨"Wagers", "/wagers", false⟩ ∧
    selectedIndex (visibleItems (some Role.user)) "/" = 0 := by
  refine ⟨?_, by decide, ?_⟩
  · apply (navigation_active_tab (visibleItems (some Role.user)) "/wagers/123").1 1
      ⟨"Wagers", "/wagers", false⟩ (by decide) (by decide)
    intro j itemJ hj hget
    have hj0 : j = 0 := by omega
    subst hj0
    have h0 : itemJ = ⟨"Dashboard", "/", false⟩ := by
      have : (visibleItems (some Role.user)).get? 0 =
          some (⟨"Dashboard", "/", false⟩ : NavItem) := by decide
      rw [this] at hget
      exact (Option.some.injEq _ _).mp hget.symm
    subst h0
    decide
  · apply (navigation_active_tab (visibleItems (some Role.user)) "/").1 0
      ⟨"Dashboard", "/", false⟩ (by decide) (by decide)
    intro j itemJ hj
    omega

end RoachParlor
